import Mathlib

/-!
Shallow embedding of `pkg/services/librarypanels/librarypanels.go`
(the `LibraryPanelService` of the Panel Library feature).

JSON documents handled through `simplejson` are modelled by the inductive
type `Json` below.  Numbers that the code touches are `int64` values read
with `MustInt64`, so `Json` carries `Int` (the code never reads the other
numeric shapes).  A Go `nil` map (the default of `MustMap`) is identified
with the empty object: the code only ever stores such a map back into a
document and never distinguishes the two.

The Go functions mutate `dash.Data` in place through `SetIndex`/`Set` and
return only an `error`; they are embedded as functions returning the final
document state *and* an optional error message (the exact `errors.New`
strings of the source), which captures the partially mutated state that a
caller observes after a failed call.
-/

inductive Json where
  | null : Json
  | str : String → Json
  | int : Int → Json
  | bool : Bool → Json
  | arr : List Json → Json
  | obj : List (String × Json) → Json

namespace Json

/-- Go's `libraryPanel.Interface() == nil` test: a missing field or an
explicit JSON null both read back as `nil`. -/
def isNull : Json → Bool
  | null => true
  | _ => false

/-- Update the first binding of `k` in an association list, or append one. -/
def setKey : List (String × Json) → String → Json → List (String × Json)
  | [], k, v => [(k, v)]
  | (k', v') :: rest, k, v =>
      if k' = k then (k, v) :: rest else (k', v') :: setKey rest k v

/-- First binding of `k` in an association list. -/
def getKey : List (String × Json) → String → Json
  | [], _ => null
  | (k', v) :: rest, k => if k' = k then v else getKey rest k

/-- `j.Get(k)`: field lookup; a missing field (or a non-object receiver)
yields a `Json` whose `Interface()` is Go `nil`, modelled as `null`. -/
def getField : Json → String → Json
  | obj fields, k => getKey fields k
  | _, _ => null

/-- `j.Set(k, v)`: sets a field when the receiver is an object, otherwise
does nothing (simplejson's `Set` silently no-ops on non-maps). -/
def setField : Json → String → Json → Json
  | obj fields, k, v => obj (setKey fields k v)
  | j, _, _ => j

/-- `j.MustString()` with no default. -/
def mustString : Json → String
  | str s => s
  | _ => ""

/-- `j.MustInt64(d)`. -/
def mustInt64 (d : Int) : Json → Int
  | int n => n
  | _ => d

/-- `j.MustMap()`: the value when it is a map, else the `nil` map
(identified with the empty object, see the file comment). -/
def mustMap : Json → Json
  | obj fields => obj fields
  | _ => obj []

/-- `j.MustArray()` with no default. -/
def mustArray : Json → List Json
  | arr xs => xs
  | _ => []

end Json

open Json

/-- A library panel row as returned by the panel lookup
(`getLibraryPanelsForDashboardID`): the fields the service reads are
`UID`, `Name` and the JSON `Model` (the `MarshalJSON`/`NewJson` round trip
of the stored model is the identity on the embedded `Json` value). -/
structure LibraryPanel where
  UID : String
  Name : String
  Model : Json

/-- The lookup result of `getLibraryPanelsForDashboardID`: a map from
library-panel uid to the row, modelled as an association list. -/
abbrev PanelLookup := List (String × LibraryPanel)

/-- Find a uid in the lookup map (`libraryPanels[uid]`). -/
def PanelLookup.find : PanelLookup → String → Option LibraryPanel
  | [], _ => none
  | (k, lp) :: rest, uid => if k = uid then some lp else PanelLookup.find rest uid

/-- The part of `setting.Cfg` the service reads:
`Cfg.IsPanelLibraryEnabled()` is an externally stored feature flag,
modelled as a boolean field. -/
structure Cfg where
  panelLibraryEnabled : Bool
deriving DecidableEq

/-- `LibraryPanelService`: only `Cfg` influences the transforms
(`SQLStore` access is abstracted by `PanelLookup` / the link store). -/
structure LibraryPanelService where
  Cfg : Option Cfg
deriving DecidableEq

/-- `models.Dashboard`: the fields the service reads. -/
structure Dashboard where
  Id : Int
  Uid : String
  Data : Json

/-- `IsEnabled`: false when `lps.Cfg == nil`, else the configured flag. -/
def LibraryPanelService.IsEnabled (lps : LibraryPanelService) : Bool :=
  match lps.Cfg with
  | none => false
  | some cfg => cfg.panelLibraryEnabled

/-- The loop of `LoadLibraryPanelsForDashboard` over the panels array:
each already-visited index holds its (possibly replaced) panel and the
remaining suffix is untouched; on error the loop stops, leaving the
suffix as-is, and the error string is returned. -/
def loadPanels (libraryPanels : PanelLookup) : List Json → List Json × Option String
  | [] => ([], none)
  | panel :: rest =>
      let libraryPanel := getField panel "libraryPanel"
      if libraryPanel.isNull then
        let r := loadPanels libraryPanels rest
        (panel :: r.1, r.2)
      else
        let uid := mustString (getField libraryPanel "uid")
        if uid = "" then
          (panel :: rest, some "found a library panel without uid")
        else
          match libraryPanels.find uid with
          | none =>
              (panel :: rest, some "found a library panel that does not exists as a connection")
          | some libraryPanelInDB =>
              let elem :=
                setField
                  (setField
                    (setField libraryPanelInDB.Model
                      "gridPos" (mustMap (getField panel "gridPos")))
                    "id" (Json.int (mustInt64 0 (getField panel "id"))))
                  "libraryPanel"
                  (Json.obj [("uid", Json.str libraryPanelInDB.UID),
                             ("name", Json.str libraryPanelInDB.Name)])
              let r := loadPanels libraryPanels rest
              (elem :: r.1, r.2)

/-- `LoadLibraryPanelsForDashboard` (Expand): returns the final state of the
dashboard (mutated in place in the source) and the optional error.
`libraryPanels` is the result of the panel lookup for `dash.Id`. -/
def LoadLibraryPanelsForDashboard (lps : LibraryPanelService)
    (libraryPanels : PanelLookup) (dash : Dashboard) : Dashboard × Option String :=
  if !lps.IsEnabled then (dash, none)
  else
    match getField dash.Data "panels" with
    | Json.arr panels =>
        let r := loadPanels libraryPanels panels
        ({ dash with Data := setField dash.Data "panels" (Json.arr r.1) }, r.2)
    | _ => (dash, none)

/-- The loop of `CleanLibraryPanelsForDashboard`, carrying the array index
`i` used as the default for a missing `id`. -/
def cleanPanels : Nat → List Json → List Json × Option String
  | _, [] => ([], none)
  | i, panel :: rest =>
      let libraryPanel := getField panel "libraryPanel"
      if libraryPanel.isNull then
        let r := cleanPanels (i + 1) rest
        (panel :: r.1, r.2)
      else
        let uid := mustString (getField libraryPanel "uid")
        if uid = "" then
          (panel :: rest, some "found a library panel without uid")
        else
          let name := mustString (getField libraryPanel "name")
          if name = "" then
            (panel :: rest, some "found a library panel without name")
          else
            let elem :=
              Json.obj [("id", Json.int (mustInt64 (Int.ofNat i) (getField panel "id"))),
                        ("gridPos", mustMap (getField panel "gridPos")),
                        ("libraryPanel", Json.obj [("uid", Json.str uid),
                                                   ("name", Json.str name)])]
            let r := cleanPanels (i + 1) rest
            (elem :: r.1, r.2)

/-- `CleanLibraryPanelsForDashboard` (Collapse): returns the final state of
the dashboard and the optional error. -/
def CleanLibraryPanelsForDashboard (lps : LibraryPanelService)
    (dash : Dashboard) : Dashboard × Option String :=
  if !lps.IsEnabled then (dash, none)
  else
    match getField dash.Data "panels" with
    | Json.arr panels =>
        let r := cleanPanels 0 panels
        ({ dash with Data := setField dash.Data "panels" (Json.arr r.1) }, r.2)
    | _ => (dash, none)

/-- The link table `library_panel_dashboard`, abstracted to the pairs that
its unique index constrains: (library panel uid, dashboard id).  A panel's
uid identifies its internal id uniquely, so keying rows by uid is faithful
to the unique index on (librarypanel_id, dashboard_id). -/
abbrev LinkStore := List (String × Int)

/-- Modelled from the spec: `connectDashboard` (the `UpsertLink` write of
the Reference Store) is not among the sources here; the spec requires an
idempotent upsert guarded by the unique index on
(librarypanel_id, dashboard_id) — re-linking an existing pair is a no-op,
not a duplicate row. -/
def connectDashboard (store : LinkStore) (uid : String) (dashboardId : Int) : LinkStore :=
  if (uid, dashboardId) ∈ store then store
  else store ++ [(uid, dashboardId)]

/-- `models.ReqContext`: carries the acting user; the linking logic modelled
here never reads it. -/
structure ReqContext where
  userId : Int
deriving DecidableEq

/-- The loop of `ConnectLibraryPanelsForDashboard` over the panels array,
threading the link store. -/
def connectPanels (dashboardId : Int) : List Json → LinkStore → LinkStore × Option String
  | [], store => (store, none)
  | panel :: rest, store =>
      let libraryPanel := getField panel "libraryPanel"
      if libraryPanel.isNull then
        connectPanels dashboardId rest store
      else
        let uid := mustString (getField libraryPanel "uid")
        if uid = "" then
          (store, some "found a library panel without uid")
        else
          connectPanels dashboardId rest (connectDashboard store uid dashboardId)

/-- `ConnectLibraryPanelsForDashboard` (Link): returns the final link store
and the optional error. -/
def ConnectLibraryPanelsForDashboard (lps : LibraryPanelService) (_ : ReqContext)
    (dash : Dashboard) (store : LinkStore) : LinkStore × Option String :=
  if !lps.IsEnabled then (store, none)
  else
    if dash.Id = 0 ∨ dash.Uid = "" then
      (store, some "dashboard is missing an ID or uid")
    else
      match getField dash.Data "panels" with
      | Json.arr panels => connectPanels dash.Id panels store
      | _ => (store, none)

/-! ### Observations on panel entries used in the statements -/

/-- Whether a panel entry carries a library reference
(`libraryPanel.Interface() != nil`). -/
def isLibraryRef (p : Json) : Bool :=
  !(getField p "libraryPanel").isNull

/-- The external identifier carried by an entry's library reference. -/
def refUid (p : Json) : String :=
  mustString (getField (getField p "libraryPanel") "uid")

/-- The name carried by an entry's library reference. -/
def refName (p : Json) : String :=
  mustString (getField (getField p "libraryPanel") "name")

/-- Whether a JSON value is an object. -/
def Json.isObj : Json → Bool
  | .obj _ => true
  | _ => false

/-- Whether a JSON value is an (int64) number. -/
def Json.isInt : Json → Bool
  | .int _ => true
  | _ => false

/-- The per-entry transform performed by a successful pass of the Expand
loop: untouched when the entry has no library reference, otherwise the
library panel's model overlaid with the dashboard-local `gridPos` and `id`
and the refreshed `libraryPanel` reference (entries the loop would abort on
are returned untouched; they never occur on a successful run). -/
def expandedEntry (libraryPanels : PanelLookup) (panel : Json) : Json :=
  if (getField panel "libraryPanel").isNull then panel
  else
    match libraryPanels.find (refUid panel) with
    | none => panel
    | some lp =>
        setField
          (setField
            (setField lp.Model "gridPos" (mustMap (getField panel "gridPos")))
            "id" (Json.int (mustInt64 0 (getField panel "id"))))
          "libraryPanel"
          (Json.obj [("uid", Json.str lp.UID), ("name", Json.str lp.Name)])

/-- The per-entry transform performed by a successful pass of the Collapse
loop at array index `i`. -/
def cleanedEntry (i : Nat) (panel : Json) : Json :=
  if (getField panel "libraryPanel").isNull then panel
  else
    Json.obj [("id", Json.int (mustInt64 (Int.ofNat i) (getField panel "id"))),
              ("gridPos", mustMap (getField panel "gridPos")),
              ("libraryPanel", Json.obj [("uid", Json.str (refUid panel)),
                                         ("name", Json.str (refName panel))])]

/-- `cleanedEntry` mapped over a list, threading the array index. -/
def cleanMap : Nat → List Json → List Json
  | _, [] => []
  | i, p :: rest => cleanedEntry i p :: cleanMap (i + 1) rest

/-! ### Basic lemmas about the JSON operations -/

theorem getKey_setKey_self (fields : List (String × Json)) (k : String) (v : Json) :
    getKey (setKey fields k v) k = v := by
  induction fields with
  | nil => simp [setKey, getKey]
  | cons hd tl ih =>
      obtain ⟨k', v'⟩ := hd
      by_cases hk : k' = k
      · simp [setKey, getKey, hk]
      · simp [setKey, getKey, hk, ih]

theorem getKey_setKey_ne (fields : List (String × Json)) (k k' : String) (v : Json)
    (h : k' ≠ k) :
    getKey (setKey fields k v) k' = getKey fields k' := by
  have hne : ¬ (k = k') := fun hkk => h hkk.symm
  induction fields with
  | nil => simp [setKey, getKey, hne]
  | cons hd tl ih =>
      obtain ⟨k₀, v₀⟩ := hd
      by_cases hk : k₀ = k
      · subst hk
        simp [setKey, getKey, hne]
      · simp only [setKey, if_neg hk, getKey]
        by_cases hk' : k₀ = k'
        · simp [hk']
        · simp [hk', ih]

theorem getField_setField_self (fields : List (String × Json)) (k : String) (v : Json) :
    getField (setField (Json.obj fields) k v) k = v := by
  simp [setField, getField, getKey_setKey_self]

theorem getField_setField_ne (j : Json) (k k' : String) (v : Json) (h : k' ≠ k) :
    getField (setField j k v) k' = getField j k' := by
  cases j <;> simp [setField, getField]
  exact getKey_setKey_ne _ _ _ _ h

theorem setKey_setKey (fields : List (String × Json)) (k : String) (v w : Json) :
    setKey (setKey fields k v) k w = setKey fields k w := by
  induction fields with
  | nil => simp [setKey]
  | cons hd tl ih =>
      obtain ⟨k₀, v₀⟩ := hd
      by_cases hk : k₀ = k
      · subst hk
        simp [setKey]
      · simp [setKey, if_neg hk, ih]

theorem setField_setField_self (j : Json) (k : String) (v w : Json) :
    setField (setField j k v) k w = setField j k w := by
  cases j <;> simp [setField, setKey_setKey]

theorem mustMap_mustMap (j : Json) : mustMap (mustMap j) = mustMap j := by
  cases j <;> rfl

theorem setField_obj_isObj (fields : List (String × Json)) (k : String) (v : Json) :
    ∃ fields', setField (Json.obj fields) k v = Json.obj fields' :=
  ⟨setKey fields k v, rfl⟩

/-- A non-null field can only be read off an object. -/
theorem exists_obj_of_getField_ne_null (j : Json) (k : String)
    (h : ¬ (getField j k).isNull = true) : ∃ fields, j = Json.obj fields := by
  cases j <;> simp [getField, Json.isNull] at h ⊢

/-! ### Step lemmas for the three per-panel loops -/

theorem loadPanels_cons_skip (lib : PanelLookup) (p : Json) (rest : List Json)
    (h : (getField p "libraryPanel").isNull = true) :
    loadPanels lib (p :: rest) =
      (p :: (loadPanels lib rest).1, (loadPanels lib rest).2) := by
  simp [loadPanels, h]

theorem loadPanels_cons_noUid (lib : PanelLookup) (p : Json) (rest : List Json)
    (h : (getField p "libraryPanel").isNull = false) (hu : refUid p = "") :
    loadPanels lib (p :: rest) = (p :: rest, some "found a library panel without uid") := by
  simp [loadPanels, h, refUid] at hu ⊢
  simp [hu]

theorem loadPanels_cons_dangling (lib : PanelLookup) (p : Json) (rest : List Json)
    (h : (getField p "libraryPanel").isNull = false) (hu : ¬ refUid p = "")
    (hf : lib.find (refUid p) = none) :
    loadPanels lib (p :: rest) =
      (p :: rest, some "found a library panel that does not exists as a connection") := by
  simp only [refUid] at hu hf
  simp [loadPanels, h, hu, hf]

theorem loadPanels_cons_found (lib : PanelLookup) (p : Json) (rest : List Json)
    (lp : LibraryPanel) (h : (getField p "libraryPanel").isNull = false)
    (hu : ¬ refUid p = "") (hf : lib.find (refUid p) = some lp) :
    loadPanels lib (p :: rest) =
      (expandedEntry lib p :: (loadPanels lib rest).1, (loadPanels lib rest).2) := by
  simp only [refUid] at hu hf
  simp [loadPanels, h, hu, hf, expandedEntry, refUid]

theorem cleanPanels_cons_skip (i : Nat) (p : Json) (rest : List Json)
    (h : (getField p "libraryPanel").isNull = true) :
    cleanPanels i (p :: rest) =
      (p :: (cleanPanels (i + 1) rest).1, (cleanPanels (i + 1) rest).2) := by
  simp [cleanPanels, h]

theorem cleanPanels_cons_noUid (i : Nat) (p : Json) (rest : List Json)
    (h : (getField p "libraryPanel").isNull = false) (hu : refUid p = "") :
    cleanPanels i (p :: rest) = (p :: rest, some "found a library panel without uid") := by
  simp only [refUid] at hu
  simp [cleanPanels, h, hu]

theorem cleanPanels_cons_noName (i : Nat) (p : Json) (rest : List Json)
    (h : (getField p "libraryPanel").isNull = false) (hu : ¬ refUid p = "")
    (hn : refName p = "") :
    cleanPanels i (p :: rest) = (p :: rest, some "found a library panel without name") := by
  simp only [refUid] at hu
  simp only [refName] at hn
  simp [cleanPanels, h, hu, hn]

theorem cleanPanels_cons_keep (i : Nat) (p : Json) (rest : List Json)
    (h : (getField p "libraryPanel").isNull = false) (hu : ¬ refUid p = "")
    (hn : ¬ refName p = "") :
    cleanPanels i (p :: rest) =
      (cleanedEntry i p :: (cleanPanels (i + 1) rest).1, (cleanPanels (i + 1) rest).2) := by
  simp only [refUid] at hu
  simp only [refName] at hn
  simp [cleanPanels, h, hu, hn, cleanedEntry, refUid, refName]

theorem connectPanels_cons_skip (d : Int) (p : Json) (rest : List Json) (store : LinkStore)
    (h : (getField p "libraryPanel").isNull = true) :
    connectPanels d (p :: rest) store = connectPanels d rest store := by
  simp [connectPanels, h]

theorem connectPanels_cons_noUid (d : Int) (p : Json) (rest : List Json) (store : LinkStore)
    (h : (getField p "libraryPanel").isNull = false) (hu : refUid p = "") :
    connectPanels d (p :: rest) store = (store, some "found a library panel without uid") := by
  simp only [refUid] at hu
  simp [connectPanels, h, hu]

theorem connectPanels_cons_link (d : Int) (p : Json) (rest : List Json) (store : LinkStore)
    (h : (getField p "libraryPanel").isNull = false) (hu : ¬ refUid p = "") :
    connectPanels d (p :: rest) store =
      connectPanels d rest (connectDashboard store (refUid p) d) := by
  simp only [refUid] at hu
  simp [connectPanels, h, hu, refUid]

/-! ### Characterizing the loop results -/

/-- A successful Expand pass maps `expandedEntry` over the panels array. -/
theorem loadPanels_fst_of_none (lib : PanelLookup) (ps : List Json)
    (h : (loadPanels lib ps).2 = none) :
    (loadPanels lib ps).1 = ps.map (expandedEntry lib) := by
  induction ps with
  | nil => rfl
  | cons p rest ih =>
      cases hnull : (getField p "libraryPanel").isNull with
      | true =>
          rw [loadPanels_cons_skip _ _ _ hnull] at h ⊢
          simp only at h
          have he : expandedEntry lib p = p := by simp [expandedEntry, hnull]
          simp [ih h, he]
      | false =>
          by_cases hu : refUid p = ""
          · rw [loadPanels_cons_noUid _ _ _ hnull hu] at h
            simp at h
          · cases hf : lib.find (refUid p) with
            | none =>
                rw [loadPanels_cons_dangling _ _ _ hnull hu hf] at h
                simp at h
            | some lp =>
                rw [loadPanels_cons_found _ _ _ lp hnull hu hf] at h ⊢
                simp only at h
                simp [ih h]

/-- A successful Collapse pass maps `cleanedEntry` (with its index) over the
panels array. -/
theorem cleanPanels_fst_of_none (i : Nat) (ps : List Json)
    (h : (cleanPanels i ps).2 = none) :
    (cleanPanels i ps).1 = cleanMap i ps := by
  induction ps generalizing i with
  | nil => rfl
  | cons p rest ih =>
      cases hnull : (getField p "libraryPanel").isNull with
      | true =>
          rw [cleanPanels_cons_skip _ _ _ hnull] at h ⊢
          simp only at h
          have he : cleanedEntry i p = p := by simp [cleanedEntry, hnull]
          simp [cleanMap, ih _ h, he]
      | false =>
          by_cases hu : refUid p = ""
          · rw [cleanPanels_cons_noUid _ _ _ hnull hu] at h
            simp at h
          · by_cases hn : refName p = ""
            · rw [cleanPanels_cons_noName _ _ _ hnull hu hn] at h
              simp at h
            · rw [cleanPanels_cons_keep _ _ _ hnull hu hn] at h ⊢
              simp only at h
              simp [cleanMap, ih _ h]

/-- A failing Expand pass transforms the entries before the failing one and
leaves the failing entry and everything after it untouched. -/
theorem loadPanels_error (lib : PanelLookup) (ps : List Json) (e : String)
    (h : (loadPanels lib ps).2 = some e) :
    ∃ pre p suf, ps = pre ++ p :: suf ∧
      (loadPanels lib ps).1 = pre.map (expandedEntry lib) ++ p :: suf := by
  induction ps with
  | nil => simp [loadPanels] at h
  | cons p rest ih =>
      cases hnull : (getField p "libraryPanel").isNull with
      | true =>
          rw [loadPanels_cons_skip _ _ _ hnull] at h ⊢
          simp only at h
          obtain ⟨pre, q, suf, hsplit, hfst⟩ := ih h
          have he : expandedEntry lib p = p := by simp [expandedEntry, hnull]
          exact ⟨p :: pre, q, suf, by simp [hsplit], by simp [hfst, he]⟩
      | false =>
          by_cases hu : refUid p = ""
          · rw [loadPanels_cons_noUid _ _ _ hnull hu]
            exact ⟨[], p, rest, by simp, by simp⟩
          · cases hf : lib.find (refUid p) with
            | none =>
                rw [loadPanels_cons_dangling _ _ _ hnull hu hf]
                exact ⟨[], p, rest, by simp, by simp⟩
            | some lp =>
                rw [loadPanels_cons_found _ _ _ lp hnull hu hf] at h ⊢
                simp only at h
                obtain ⟨pre, q, suf, hsplit, hfst⟩ := ih h
                exact ⟨p :: pre, q, suf, by simp [hsplit], by simp [hfst]⟩

/-- A failing Collapse pass transforms the entries before the failing one and
leaves the failing entry and everything after it untouched. -/
theorem cleanPanels_error (i : Nat) (ps : List Json) (e : String)
    (h : (cleanPanels i ps).2 = some e) :
    ∃ pre p suf, ps = pre ++ p :: suf ∧
      (cleanPanels i ps).1 = cleanMap i pre ++ p :: suf := by
  induction ps generalizing i with
  | nil => simp [cleanPanels] at h
  | cons p rest ih =>
      cases hnull : (getField p "libraryPanel").isNull with
      | true =>
          rw [cleanPanels_cons_skip _ _ _ hnull] at h ⊢
          simp only at h
          obtain ⟨pre, q, suf, hsplit, hfst⟩ := ih _ h
          have he : cleanedEntry i p = p := by simp [cleanedEntry, hnull]
          exact ⟨p :: pre, q, suf, by simp [hsplit], by simp [cleanMap, hfst, he]⟩
      | false =>
          by_cases hu : refUid p = ""
          · rw [cleanPanels_cons_noUid _ _ _ hnull hu]
            exact ⟨[], p, rest, by simp, by simp [cleanMap]⟩
          · by_cases hn : refName p = ""
            · rw [cleanPanels_cons_noName _ _ _ hnull hu hn]
              exact ⟨[], p, rest, by simp, by simp [cleanMap]⟩
            · rw [cleanPanels_cons_keep _ _ _ hnull hu hn] at h ⊢
              simp only at h
              obtain ⟨pre, q, suf, hsplit, hfst⟩ := ih _ h
              exact ⟨p :: pre, q, suf, by simp [hsplit], by simp [cleanMap, hfst]⟩

/-! ### The feature gate -/

/-- All three operations short-circuit to an error-free no-op when the
feature is disabled. -/
theorem noop_of_disabled (lps : LibraryPanelService) (h : lps.IsEnabled = false)
    (lib : PanelLookup) (dash : Dashboard) (c : ReqContext) (store : LinkStore) :
    LoadLibraryPanelsForDashboard lps lib dash = (dash, none) ∧
    CleanLibraryPanelsForDashboard lps dash = (dash, none) ∧
    ConnectLibraryPanelsForDashboard lps c dash store = (store, none) := by
  refine ⟨?_, ?_, ?_⟩ <;>
    simp [LoadLibraryPanelsForDashboard, CleanLibraryPanelsForDashboard,
      ConnectLibraryPanelsForDashboard, h]

/-- C9: with the feature flag disabled, Expand, Collapse and Link return with
no error, leave the dashboard document unchanged, and leave the link store
untouched (the result does not depend on the panel lookup or the store), for
every input dashboard. -/
theorem C9_feature_flag_off_noop (lps : LibraryPanelService) (h : lps.IsEnabled = false)
    (lib : PanelLookup) (dash : Dashboard) (c : ReqContext) (store : LinkStore) :
    LoadLibraryPanelsForDashboard lps lib dash = (dash, none) ∧
    CleanLibraryPanelsForDashboard lps dash = (dash, none) ∧
    ConnectLibraryPanelsForDashboard lps c dash store = (store, none) :=
  noop_of_disabled lps h lib dash c store

theorem C9_feature_flag_off_noop_witness :
    LoadLibraryPanelsForDashboard ⟨some ⟨false⟩⟩ [] ⟨1, "d1", Json.null⟩ =
      (⟨1, "d1", Json.null⟩, none) ∧
    CleanLibraryPanelsForDashboard ⟨some ⟨false⟩⟩ ⟨1, "d1", Json.null⟩ =
      (⟨1, "d1", Json.null⟩, none) ∧
    ConnectLibraryPanelsForDashboard ⟨some ⟨false⟩⟩ ⟨7⟩ ⟨1, "d1", Json.null⟩ [] =
      ([], none) :=
  C9_feature_flag_off_noop ⟨some ⟨false⟩⟩ rfl [] ⟨1, "d1", Json.null⟩ ⟨7⟩ []

/-- C10: an unconfigured service (`Cfg == nil`) reports the feature as
disabled rather than failing, so Expand, Collapse and Link degrade to
error-free no-ops on every dashboard. -/
theorem C10_nil_cfg_noop (lps : LibraryPanelService) (h : lps.Cfg = none)
    (lib : PanelLookup) (dash : Dashboard) (c : ReqContext) (store : LinkStore) :
    lps.IsEnabled = false ∧
    LoadLibraryPanelsForDashboard lps lib dash = (dash, none) ∧
    CleanLibraryPanelsForDashboard lps dash = (dash, none) ∧
    ConnectLibraryPanelsForDashboard lps c dash store = (store, none) := by
  have hd : lps.IsEnabled = false := by
    simp [LibraryPanelService.IsEnabled, h]
  exact ⟨hd, noop_of_disabled lps hd lib dash c store⟩

theorem C10_nil_cfg_noop_witness :
    LibraryPanelService.IsEnabled ⟨none⟩ = false ∧
    LoadLibraryPanelsForDashboard ⟨none⟩ [] ⟨1, "d1", Json.null⟩ =
      (⟨1, "d1", Json.null⟩, none) ∧
    CleanLibraryPanelsForDashboard ⟨none⟩ ⟨1, "d1", Json.null⟩ =
      (⟨1, "d1", Json.null⟩, none) ∧
    ConnectLibraryPanelsForDashboard ⟨none⟩ ⟨7⟩ ⟨1, "d1", Json.null⟩ [] =
      ([], none) :=
  C10_nil_cfg_noop ⟨none⟩ rfl [] ⟨1, "d1", Json.null⟩ ⟨7⟩ []

/-- C7: with the feature enabled, Link fails with the validation error on a
dashboard whose internal id is zero or whose uid is empty, for every panel
array and every link store, and the store is left unchanged (no link rows are
created). -/
theorem C7_link_validation (lps : LibraryPanelService) (c : ReqContext)
    (dash : Dashboard) (store : LinkStore) (hEn : lps.IsEnabled = true)
    (h : dash.Id = 0 ∨ dash.Uid = "") :
    ConnectLibraryPanelsForDashboard lps c dash store =
      (store, some "dashboard is missing an ID or uid") := by
  unfold ConnectLibraryPanelsForDashboard
  rw [hEn, if_pos h]
  rfl

theorem C7_link_validation_witness :
    ConnectLibraryPanelsForDashboard ⟨some ⟨true⟩⟩ ⟨7⟩ ⟨0, "d1", Json.null⟩
        [("abc", 4)] =
      ([("abc", 4)], some "dashboard is missing an ID or uid") :=
  C7_link_validation ⟨some ⟨true⟩⟩ ⟨7⟩ ⟨0, "d1", Json.null⟩ [("abc", 4)] rfl
    (Or.inl rfl)

/-! ### Dashboard-level unfolding under the enabled gate -/

theorem Load_eq_of_enabled (lps : LibraryPanelService) (lib : PanelLookup)
    (dash : Dashboard) (panels : List Json) (hEn : lps.IsEnabled = true)
    (hp : getField dash.Data "panels" = Json.arr panels) :
    LoadLibraryPanelsForDashboard lps lib dash =
      ({ dash with Data := setField dash.Data "panels" (Json.arr (loadPanels lib panels).1) },
        (loadPanels lib panels).2) := by
  unfold LoadLibraryPanelsForDashboard
  rw [hEn, hp]
  rfl

theorem Clean_eq_of_enabled (lps : LibraryPanelService)
    (dash : Dashboard) (panels : List Json) (hEn : lps.IsEnabled = true)
    (hp : getField dash.Data "panels" = Json.arr panels) :
    CleanLibraryPanelsForDashboard lps dash =
      ({ dash with Data := setField dash.Data "panels" (Json.arr (cleanPanels 0 panels).1) },
        (cleanPanels 0 panels).2) := by
  unfold CleanLibraryPanelsForDashboard
  rw [hEn, hp]
  rfl

theorem cleanMap_length (i : Nat) (ps : List Json) : (cleanMap i ps).length = ps.length := by
  induction ps generalizing i with
  | nil => rfl
  | cons p rest ih => simp [cleanMap, ih]

theorem cleanMap_get (i : Nat) (ps : List Json) (j : Nat) (hj : j < ps.length)
    (hj' : j < (cleanMap i ps).length) :
    (cleanMap i ps).get ⟨j, hj'⟩ = cleanedEntry (i + j) (ps.get ⟨j, hj⟩) := by
  induction ps generalizing i j with
  | nil => exact absurd hj (by simp)
  | cons p rest ih =>
      cases j with
      | zero => simp [cleanMap]
      | succ j =>
          have hjr : j < rest.length := by simpa using hj
          have hjr' : j < (cleanMap (i + 1) rest).length := by
            simpa [cleanMap_length] using hjr
          have := ih (i + 1) j hjr hjr'
          simpa [cleanMap, Nat.add_assoc, Nat.add_comm 1 j] using this

/-! ### Concrete fixtures (the worked scenario of the spec) -/

/-- A service with the Panel Library feature enabled. -/
def enabledService : LibraryPanelService := ⟨some ⟨true⟩⟩

/-- The library panel `abc`, currently named "New Name", whose model is
`{type: "graph"}`. -/
def abcPanel : LibraryPanel :=
  ⟨"abc", "New Name", Json.obj [("type", Json.str "graph")]⟩

/-- Panel lookup connecting only `abc`. -/
def abcLookup : PanelLookup := [("abc", abcPanel)]

/-- The collapsed dashboard entry
`{id:1, gridPos:{x:0,y:0}, libraryPanel:{uid:"abc", name:"Old Name"}}`. -/
def oldEntry : Json :=
  Json.obj [("id", Json.int 1),
            ("gridPos", Json.obj [("x", Json.int 0), ("y", Json.int 0)]),
            ("libraryPanel", Json.obj [("uid", Json.str "abc"),
                                       ("name", Json.str "Old Name")])]

/-- A dashboard holding just `oldEntry`. -/
def oldDash : Dashboard := ⟨1, "d1", Json.obj [("panels", Json.arr [oldEntry])]⟩

/-- The expanded entry: the model of `abc` overlaid with the
dashboard-local `gridPos` and `id` and the refreshed reference. -/
def expEntry : Json :=
  Json.obj [("type", Json.str "graph"),
            ("gridPos", Json.obj [("x", Json.int 0), ("y", Json.int 0)]),
            ("id", Json.int 1),
            ("libraryPanel", Json.obj [("uid", Json.str "abc"),
                                       ("name", Json.str "New Name")])]

/-- A dashboard holding just `expEntry`. -/
def expDash : Dashboard := ⟨1, "d1", Json.obj [("panels", Json.arr [expEntry])]⟩

/-- C4: with the feature enabled, on a Collapse call that succeeds, every
entry carrying a library reference with non-empty uid and name is replaced
wholesale by exactly `{id, gridPos, libraryPanel:{uid, name}}` — every other
field of the entry is discarded — where id is the entry's own numeric id
when it has one and the entry's array index when the id field is absent;
entries without a library reference pass through unchanged. -/
theorem C4_collapse_minimal_form (lps : LibraryPanelService) (dash : Dashboard)
    (panels : List Json) (hEn : lps.IsEnabled = true)
    (hp : getField dash.Data "panels" = Json.arr panels)
    (hsucc : (CleanLibraryPanelsForDashboard lps dash).2 = none) :
    ∃ out : List Json,
      (CleanLibraryPanelsForDashboard lps dash).1.Data =
        setField dash.Data "panels" (Json.arr out) ∧
      out.length = panels.length ∧
      ∀ j (hj : j < panels.length) (hj' : j < out.length),
        (isLibraryRef (panels.get ⟨j, hj⟩) = false →
          out.get ⟨j, hj'⟩ = panels.get ⟨j, hj⟩) ∧
        (isLibraryRef (panels.get ⟨j, hj⟩) = true →
          refUid (panels.get ⟨j, hj⟩) ≠ "" → refName (panels.get ⟨j, hj⟩) ≠ "" →
          (∀ n : Int, getField (panels.get ⟨j, hj⟩) "id" = Json.int n →
              out.get ⟨j, hj'⟩ =
                Json.obj [("id", Json.int n),
                          ("gridPos", mustMap (getField (panels.get ⟨j, hj⟩) "gridPos")),
                          ("libraryPanel",
                            Json.obj [("uid", Json.str (refUid (panels.get ⟨j, hj⟩))),
                                      ("name", Json.str (refName (panels.get ⟨j, hj⟩)))])]) ∧
          (getField (panels.get ⟨j, hj⟩) "id" = Json.null →
              out.get ⟨j, hj'⟩ =
                Json.obj [("id", Json.int (Int.ofNat j)),
                          ("gridPos", mustMap (getField (panels.get ⟨j, hj⟩) "gridPos")),
                          ("libraryPanel",
                            Json.obj [("uid", Json.str (refUid (panels.get ⟨j, hj⟩))),
                                      ("name", Json.str (refName (panels.get ⟨j, hj⟩)))])])) := by
  rw [Clean_eq_of_enabled lps dash panels hEn hp] at hsucc ⊢
  simp only at hsucc
  have hmap := cleanPanels_fst_of_none 0 panels hsucc
  refine ⟨cleanMap 0 panels, by simp [hmap], cleanMap_length 0 panels, ?_⟩
  intro j hj hj'
  have hget := cleanMap_get 0 panels j hj hj'
  rw [Nat.zero_add] at hget
  rw [hget]
  generalize panels.get ⟨j, hj⟩ = p
  constructor
  · intro hlib
    have hnull : (getField p "libraryPanel").isNull = true := by
      simpa [isLibraryRef] using hlib
    simp [cleanedEntry, hnull]
  · intro hlib _ _
    have hnull : (getField p "libraryPanel").isNull = false := by
      simpa [isLibraryRef] using hlib
    constructor
    · intro n hid
      simp [cleanedEntry, hnull, hid, mustInt64]
    · intro hid
      simp [cleanedEntry, hnull, hid, mustInt64]

theorem C4_collapse_minimal_form_witness :
    ∃ out : List Json,
      (CleanLibraryPanelsForDashboard enabledService expDash).1.Data =
        setField expDash.Data "panels" (Json.arr out) ∧
      out.length = [expEntry].length ∧
      ∀ j (hj : j < [expEntry].length) (hj' : j < out.length),
        (isLibraryRef ([expEntry].get ⟨j, hj⟩) = false →
          out.get ⟨j, hj'⟩ = [expEntry].get ⟨j, hj⟩) ∧
        (isLibraryRef ([expEntry].get ⟨j, hj⟩) = true →
          refUid ([expEntry].get ⟨j, hj⟩) ≠ "" → refName ([expEntry].get ⟨j, hj⟩) ≠ "" →
          (∀ n : Int, getField ([expEntry].get ⟨j, hj⟩) "id" = Json.int n →
              out.get ⟨j, hj'⟩ =
                Json.obj [("id", Json.int n),
                          ("gridPos", mustMap (getField ([expEntry].get ⟨j, hj⟩) "gridPos")),
                          ("libraryPanel",
                            Json.obj [("uid", Json.str (refUid ([expEntry].get ⟨j, hj⟩))),
                                      ("name", Json.str (refName ([expEntry].get ⟨j, hj⟩)))])]) ∧
          (getField ([expEntry].get ⟨j, hj⟩) "id" = Json.null →
              out.get ⟨j, hj'⟩ =
                Json.obj [("id", Json.int (Int.ofNat j)),
                          ("gridPos", mustMap (getField ([expEntry].get ⟨j, hj⟩) "gridPos")),
                          ("libraryPanel",
                            Json.obj [("uid", Json.str (refUid ([expEntry].get ⟨j, hj⟩))),
                                      ("name", Json.str (refName ([expEntry].get ⟨j, hj⟩)))])])) :=
  C4_collapse_minimal_form enabledService expDash [expEntry] rfl rfl rfl

/-! ### Field observations on an expanded entry -/

theorem expandedEntry_fields (lib : PanelLookup) (p : Json) (lp : LibraryPanel)
    (mf : List (String × Json))
    (hnull : (getField p "libraryPanel").isNull = false)
    (hf : lib.find (refUid p) = some lp) (hmf : lp.Model = Json.obj mf) :
    getField (expandedEntry lib p) "libraryPanel" =
      Json.obj [("uid", Json.str lp.UID), ("name", Json.str lp.Name)] ∧
    getField (expandedEntry lib p) "id" = Json.int (mustInt64 0 (getField p "id")) ∧
    getField (expandedEntry lib p) "gridPos" = mustMap (getField p "gridPos") ∧
    ∀ k, k ≠ "gridPos" → k ≠ "id" → k ≠ "libraryPanel" →
      getField (expandedEntry lib p) k = getField lp.Model k := by
  have he : expandedEntry lib p =
      setField
        (setField
          (setField (Json.obj mf) "gridPos" (mustMap (getField p "gridPos")))
          "id" (Json.int (mustInt64 0 (getField p "id"))))
        "libraryPanel"
        (Json.obj [("uid", Json.str lp.UID), ("name", Json.str lp.Name)]) := by
    rw [← hmf]
    simp [expandedEntry, hnull, hf]
  rw [he]
  set G := mustMap (getField p "gridPos")
  set I := Json.int (mustInt64 0 (getField p "id"))
  refine ⟨getField_setField_self _ _ _, ?_, ?_, ?_⟩
  · rw [getField_setField_ne _ _ _ _ (by decide : "id" ≠ "libraryPanel")]
    exact getField_setField_self _ _ _
  · rw [getField_setField_ne _ _ _ _ (by decide : "gridPos" ≠ "libraryPanel"),
      getField_setField_ne _ _ _ _ (by decide : "gridPos" ≠ "id")]
    exact getField_setField_self _ _ _
  · intro k hk1 hk2 hk3
    rw [getField_setField_ne _ _ _ _ hk3, getField_setField_ne _ _ _ _ hk2,
      getField_setField_ne _ _ _ _ hk1, hmf]

/-- C3: with the feature enabled, on an Expand call that succeeds, every
entry whose library reference is found in the lookup map ends up as the
library panel's content blob with `gridPos` and numeric `id` set back to the
entry's original dashboard-local values and `libraryPanel` set to
`{uid, name}` with the current authoritative name; entries with no library
reference are skipped unmodified. -/
theorem C3_expand_overlays_entries (lps : LibraryPanelService) (lib : PanelLookup)
    (dash : Dashboard) (panels : List Json) (hEn : lps.IsEnabled = true)
    (hp : getField dash.Data "panels" = Json.arr panels)
    (hsucc : (LoadLibraryPanelsForDashboard lps lib dash).2 = none) :
    ∃ out : List Json,
      (LoadLibraryPanelsForDashboard lps lib dash).1.Data =
        setField dash.Data "panels" (Json.arr out) ∧
      out.length = panels.length ∧
      ∀ j (hj : j < panels.length) (hj' : j < out.length),
        (isLibraryRef (panels.get ⟨j, hj⟩) = false →
          out.get ⟨j, hj'⟩ = panels.get ⟨j, hj⟩) ∧
        ∀ lp mf, isLibraryRef (panels.get ⟨j, hj⟩) = true →
          lib.find (refUid (panels.get ⟨j, hj⟩)) = some lp →
          lp.Model = Json.obj mf →
          getField (out.get ⟨j, hj'⟩) "libraryPanel" =
            Json.obj [("uid", Json.str lp.UID), ("name", Json.str lp.Name)] ∧
          (∀ n : Int, getField (panels.get ⟨j, hj⟩) "id" = Json.int n →
            getField (out.get ⟨j, hj'⟩) "id" = Json.int n) ∧
          (∀ g, getField (panels.get ⟨j, hj⟩) "gridPos" = Json.obj g →
            getField (out.get ⟨j, hj'⟩) "gridPos" = Json.obj g) ∧
          ∀ k, k ≠ "gridPos" → k ≠ "id" → k ≠ "libraryPanel" →
            getField (out.get ⟨j, hj'⟩) k = getField lp.Model k := by
  rw [Load_eq_of_enabled lps lib dash panels hEn hp] at hsucc ⊢
  simp only at hsucc
  have hmap := loadPanels_fst_of_none lib panels hsucc
  refine ⟨panels.map (expandedEntry lib), by simp [hmap], by simp, ?_⟩
  intro j hj hj'
  have hget : (panels.map (expandedEntry lib)).get ⟨j, hj'⟩ =
      expandedEntry lib (panels.get ⟨j, hj⟩) := by
    simp
  rw [hget]
  generalize panels.get ⟨j, hj⟩ = p
  constructor
  · intro hlib
    have hnull : (getField p "libraryPanel").isNull = true := by
      simpa [isLibraryRef] using hlib
    simp [expandedEntry, hnull]
  · intro lp mf hlib hf hmf
    have hnull : (getField p "libraryPanel").isNull = false := by
      simpa [isLibraryRef] using hlib
    obtain ⟨h1, h2, h3, h4⟩ := expandedEntry_fields lib p lp mf hnull hf hmf
    refine ⟨h1, ?_, ?_, h4⟩
    · intro n hid
      rw [h2, hid]
      rfl
    · intro g hgp
      rw [h3, hgp]
      rfl

theorem C3_expand_overlays_entries_witness :
    ∃ out : List Json,
      (LoadLibraryPanelsForDashboard enabledService abcLookup oldDash).1.Data =
        setField oldDash.Data "panels" (Json.arr out) ∧
      out.length = [oldEntry].length ∧
      ∀ j (hj : j < [oldEntry].length) (hj' : j < out.length),
        (isLibraryRef ([oldEntry].get ⟨j, hj⟩) = false →
          out.get ⟨j, hj'⟩ = [oldEntry].get ⟨j, hj⟩) ∧
        ∀ lp mf, isLibraryRef ([oldEntry].get ⟨j, hj⟩) = true →
          abcLookup.find (refUid ([oldEntry].get ⟨j, hj⟩)) = some lp →
          lp.Model = Json.obj mf →
          getField (out.get ⟨j, hj'⟩) "libraryPanel" =
            Json.obj [("uid", Json.str lp.UID), ("name", Json.str lp.Name)] ∧
          (∀ n : Int, getField ([oldEntry].get ⟨j, hj⟩) "id" = Json.int n →
            getField (out.get ⟨j, hj'⟩) "id" = Json.int n) ∧
          (∀ g, getField ([oldEntry].get ⟨j, hj⟩) "gridPos" = Json.obj g →
            getField (out.get ⟨j, hj'⟩) "gridPos" = Json.obj g) ∧
          ∀ k, k ≠ "gridPos" → k ≠ "id" → k ≠ "libraryPanel" →
            getField (out.get ⟨j, hj'⟩) k = getField lp.Model k :=
  C3_expand_overlays_entries enabledService abcLookup oldDash [oldEntry] rfl rfl rfl

/-! ### Which error the loops raise, and when -/

/-- If some library-linked entry has an empty uid and every earlier
library-linked entry is valid (non-empty uid, present in the lookup), the
Expand loop raises the missing-uid error. -/
theorem loadPanels_noUid_error (lib : PanelLookup) (pre : List Json) (p : Json)
    (suf : List Json)
    (hok : ∀ q ∈ pre, isLibraryRef q = true → refUid q ≠ "" ∧ (lib.find (refUid q)).isSome = true)
    (hlib : isLibraryRef p = true) (hu : refUid p = "") :
    (loadPanels lib (pre ++ p :: suf)).2 = some "found a library panel without uid" := by
  induction pre with
  | nil =>
      have hnull : (getField p "libraryPanel").isNull = false := by
        simpa [isLibraryRef] using hlib
      rw [List.nil_append, loadPanels_cons_noUid lib p suf hnull hu]
  | cons q pre' ih =>
      have hq := hok q (List.mem_cons_self q pre')
      cases hnq : (getField q "libraryPanel").isNull with
      | true =>
          rw [List.cons_append, loadPanels_cons_skip lib q _ hnq]
          exact ih fun r hr hl => hok r (List.mem_cons_of_mem q hr) hl
      | false =>
          have hql : isLibraryRef q = true := by simp [isLibraryRef, hnq]
          obtain ⟨hqu, hqf⟩ := hq hql
          obtain ⟨lp, hlp⟩ := Option.isSome_iff_exists.mp hqf
          rw [List.cons_append, loadPanels_cons_found lib q _ lp hnq hqu hlp]
          exact ih fun r hr hl => hok r (List.mem_cons_of_mem q hr) hl

/-- If some library-linked entry has an empty uid or an empty name, the
Collapse loop fails, and the error is one of the two malformed-reference
errors. -/
theorem cleanPanels_malformed_error (i : Nat) (ps : List Json)
    (h : ∃ p ∈ ps, isLibraryRef p = true ∧ (refUid p = "" ∨ refName p = "")) :
    ∃ e, (cleanPanels i ps).2 = some e ∧
      (e = "found a library panel without uid" ∨ e = "found a library panel without name") := by
  induction ps generalizing i with
  | nil => simp at h
  | cons q rest ih =>
      obtain ⟨p, hmem, hplib, hbad⟩ := h
      cases hnq : (getField q "libraryPanel").isNull with
      | true =>
          have hpr : p ∈ rest := by
            rcases List.mem_cons.mp hmem with hpq | hpr
            · subst hpq
              simp [isLibraryRef, hnq] at hplib
            · exact hpr
          rw [cleanPanels_cons_skip i q rest hnq]
          simpa using ih (i + 1) ⟨p, hpr, hplib, hbad⟩
      | false =>
          by_cases hqu : refUid q = ""
          · rw [cleanPanels_cons_noUid i q rest hnq hqu]
            exact ⟨_, rfl, Or.inl rfl⟩
          · by_cases hqn : refName q = ""
            · rw [cleanPanels_cons_noName i q rest hnq hqu hqn]
              exact ⟨_, rfl, Or.inr rfl⟩
            · have hpr : p ∈ rest := by
                rcases List.mem_cons.mp hmem with hpq | hpr
                · subst hpq
                  rcases hbad with hb | hb
                  · exact absurd hb hqu
                  · exact absurd hb hqn
                · exact hpr
              rw [cleanPanels_cons_keep i q rest hnq hqu hqn]
              simpa using ih (i + 1) ⟨p, hpr, hplib, hbad⟩

/-- An entry claiming a library reference whose uid is absent (reads back
as the empty string). -/
def noUidEntry : Json := Json.obj [("libraryPanel", Json.obj [])]

/-- An entry with a well-formed library reference whose uid `zzz` is not
connected to the dashboard (dangling). -/
def zzzEntry : Json :=
  Json.obj [("libraryPanel", Json.obj [("uid", Json.str "zzz"),
                                       ("name", Json.str "Z")])]

/-- A dashboard whose first library-linked entry is dangling and whose
second one has an empty uid. -/
def danglingFirstDash : Dashboard :=
  ⟨1, "d1", Json.obj [("panels", Json.arr [zzzEntry, noUidEntry])]⟩

/-- A dashboard whose first entry is a valid reference (to `abc`) and whose
second one has an empty uid. -/
def noUidSecondDash : Dashboard :=
  ⟨1, "d1", Json.obj [("panels", Json.arr [oldEntry, noUidEntry])]⟩

/-- C6 (amended): with the feature enabled, Expand fails with the
malformed-reference (missing uid) error when some library-linked entry has
an empty uid and every earlier library-linked entry is valid (non-empty
uid present in the lookup); Collapse fails with a malformed-reference
error (missing uid or missing name) when some library-linked entry has an
empty uid or an empty name. -/
theorem C6_malformed_errors (lps : LibraryPanelService) (lib : PanelLookup)
    (dash : Dashboard) (panels : List Json) (hEn : lps.IsEnabled = true)
    (hp : getField dash.Data "panels" = Json.arr panels) :
    ((∃ pre p suf, panels = pre ++ p :: suf ∧
        (∀ q ∈ pre, isLibraryRef q = true →
          refUid q ≠ "" ∧ (lib.find (refUid q)).isSome = true) ∧
        isLibraryRef p = true ∧ refUid p = "") →
      (LoadLibraryPanelsForDashboard lps lib dash).2 =
        some "found a library panel without uid") ∧
    ((∃ p ∈ panels, isLibraryRef p = true ∧ (refUid p = "" ∨ refName p = "")) →
      ∃ e, (CleanLibraryPanelsForDashboard lps dash).2 = some e ∧
        (e = "found a library panel without uid" ∨
         e = "found a library panel without name")) := by
  constructor
  · rintro ⟨pre, p, suf, hsplit, hok, hlib, hu⟩
    rw [Load_eq_of_enabled lps lib dash panels hEn hp]
    simp only
    rw [hsplit]
    exact loadPanels_noUid_error lib pre p suf hok hlib hu
  · intro hbad
    rw [Clean_eq_of_enabled lps dash panels hEn hp]
    simp only
    exact cleanPanels_malformed_error 0 panels hbad

theorem C6_malformed_errors_witness :
    (LoadLibraryPanelsForDashboard enabledService abcLookup noUidSecondDash).2 =
      some "found a library panel without uid" ∧
    ∃ e, (CleanLibraryPanelsForDashboard enabledService noUidSecondDash).2 = some e ∧
      (e = "found a library panel without uid" ∨
       e = "found a library panel without name") :=
  ⟨(C6_malformed_errors enabledService abcLookup noUidSecondDash [oldEntry, noUidEntry]
      rfl rfl).1
      ⟨[oldEntry], noUidEntry, [], rfl,
        fun q hq _ => by
          rw [List.mem_singleton] at hq
          subst hq
          exact ⟨by decide, rfl⟩,
        rfl, rfl⟩,
    (C6_malformed_errors enabledService abcLookup noUidSecondDash [oldEntry, noUidEntry]
      rfl rfl).2
      ⟨noUidEntry, List.mem_cons_of_mem oldEntry (List.mem_cons_self noUidEntry []),
        rfl, Or.inl rfl⟩⟩

/-- C6 as stated is false: on a dashboard where a dangling (but well-formed)
reference precedes the entry with the empty uid, Expand fails with the
dangling-reference error, not a malformed-reference error, even though some
library-linked entry has an empty uid. -/
theorem C6_counterexample :
    (isLibraryRef noUidEntry = true ∧ refUid noUidEntry = "") ∧
    (LoadLibraryPanelsForDashboard enabledService abcLookup danglingFirstDash).2 =
      some "found a library panel that does not exists as a connection" ∧
    (LoadLibraryPanelsForDashboard enabledService abcLookup danglingFirstDash).2 ≠
      some "found a library panel without uid" ∧
    (LoadLibraryPanelsForDashboard enabledService abcLookup danglingFirstDash).2 ≠
      some "found a library panel without name" :=
  ⟨⟨rfl, rfl⟩, rfl, by decide, by decide⟩

/-- Exactly when the Expand loop raises the dangling-reference error: some
library-linked entry has a non-empty uid absent from the lookup, and every
earlier library-linked entry is valid (non-empty uid present in the
lookup). -/
theorem loadPanels_dangling_iff (lib : PanelLookup) (ps : List Json) :
    (loadPanels lib ps).2 = some "found a library panel that does not exists as a connection" ↔
    ∃ pre p suf, ps = pre ++ p :: suf ∧
      (∀ q ∈ pre, isLibraryRef q = true →
        refUid q ≠ "" ∧ (lib.find (refUid q)).isSome = true) ∧
      isLibraryRef p = true ∧ refUid p ≠ "" ∧ lib.find (refUid p) = none := by
  induction ps with
  | nil =>
      constructor
      · intro h
        simp [loadPanels] at h
      · rintro ⟨pre, p, suf, hsplit, -⟩
        cases pre <;> simp at hsplit
  | cons q rest ih =>
      cases hnq : (getField q "libraryPanel").isNull with
      | true =>
          rw [loadPanels_cons_skip lib q rest hnq]
          simp only
          rw [ih]
          constructor
          · rintro ⟨pre, p, suf, hsplit, hok, hplib, hpu, hpf⟩
            refine ⟨q :: pre, p, suf, by rw [hsplit, List.cons_append], ?_, hplib, hpu, hpf⟩
            intro r hr hl
            rcases List.mem_cons.mp hr with hrq | hrp
            · subst hrq
              simp [isLibraryRef, hnq] at hl
            · exact hok r hrp hl
          · rintro ⟨pre, p, suf, hsplit, hok, hplib, hpu, hpf⟩
            cases pre with
            | nil =>
                injection hsplit with h1 h2
                subst h1
                simp [isLibraryRef, hnq] at hplib
            | cons a pre' =>
                injection hsplit with h1 h2
                subst h1
                exact ⟨pre', p, suf, h2,
                  fun r hr hl => hok r (List.mem_cons_of_mem _ hr) hl, hplib, hpu, hpf⟩
      | false =>
          by_cases hu : refUid q = ""
          · rw [loadPanels_cons_noUid lib q rest hnq hu]
            simp only
            constructor
            · intro h
              simp at h
            · rintro ⟨pre, p, suf, hsplit, hok, hplib, hpu, hpf⟩
              cases pre with
              | nil =>
                  injection hsplit with h1 h2
                  subst h1
                  exact absurd hu hpu
              | cons a pre' =>
                  injection hsplit with h1 h2
                  subst h1
                  have hql : isLibraryRef q = true := by simp [isLibraryRef, hnq]
                  exact absurd hu (hok q (List.mem_cons_self q pre') hql).1
          · cases hf : lib.find (refUid q) with
            | none =>
                rw [loadPanels_cons_dangling lib q rest hnq hu hf]
                simp only
                constructor
                · intro _
                  exact ⟨[], q, rest, rfl, by simp, by simp [isLibraryRef, hnq], hu, hf⟩
                · intro _
                  trivial
            | some lp =>
                rw [loadPanels_cons_found lib q rest lp hnq hu hf]
                simp only
                rw [ih]
                constructor
                · rintro ⟨pre, p, suf, hsplit, hok, hplib, hpu, hpf⟩
                  refine ⟨q :: pre, p, suf, by rw [hsplit, List.cons_append], ?_, hplib, hpu, hpf⟩
                  intro r hr hl
                  rcases List.mem_cons.mp hr with hrq | hrp
                  · subst hrq
                    exact ⟨hu, by rw [hf]; rfl⟩
                  · exact hok r hrp hl
                · rintro ⟨pre, p, suf, hsplit, hok, hplib, hpu, hpf⟩
                  cases pre with
                  | nil =>
                      injection hsplit with h1 h2
                      subst h1
                      rw [hf] at hpf
                      exact absurd hpf (by simp)
                  | cons a pre' =>
                      injection hsplit with h1 h2
                      subst h1
                      exact ⟨pre', p, suf, h2,
                        fun r hr hl => hok r (List.mem_cons_of_mem _ hr) hl, hplib, hpu, hpf⟩

/-- A dashboard whose first entry has an empty uid and whose second entry
is a well-formed but dangling reference. -/
def noUidFirstDash : Dashboard :=
  ⟨1, "d1", Json.obj [("panels", Json.arr [noUidEntry, zzzEntry])]⟩

/-- C5 (amended): with the feature enabled, Expand fails with the
dangling-reference error if and only if some library-linked entry has a
non-empty uid absent from the lookup AND every earlier library-linked
entry has a non-empty uid present in the lookup. -/
theorem C5_expand_dangling_iff (lps : LibraryPanelService) (lib : PanelLookup)
    (dash : Dashboard) (panels : List Json) (hEn : lps.IsEnabled = true)
    (hp : getField dash.Data "panels" = Json.arr panels) :
    (LoadLibraryPanelsForDashboard lps lib dash).2 =
        some "found a library panel that does not exists as a connection" ↔
    ∃ pre p suf, panels = pre ++ p :: suf ∧
      (∀ q ∈ pre, isLibraryRef q = true →
        refUid q ≠ "" ∧ (lib.find (refUid q)).isSome = true) ∧
      isLibraryRef p = true ∧ refUid p ≠ "" ∧ lib.find (refUid p) = none := by
  rw [Load_eq_of_enabled lps lib dash panels hEn hp]
  exact loadPanels_dangling_iff lib panels

theorem C5_expand_dangling_iff_witness :
    (LoadLibraryPanelsForDashboard enabledService abcLookup danglingFirstDash).2 =
        some "found a library panel that does not exists as a connection" ↔
    ∃ pre p suf, [zzzEntry, noUidEntry] = pre ++ p :: suf ∧
      (∀ q ∈ pre, isLibraryRef q = true →
        refUid q ≠ "" ∧ (abcLookup.find (refUid q)).isSome = true) ∧
      isLibraryRef p = true ∧ refUid p ≠ "" ∧ abcLookup.find (refUid p) = none :=
  C5_expand_dangling_iff enabledService abcLookup danglingFirstDash
    [zzzEntry, noUidEntry] rfl rfl

/-- C5 as stated is false: on a dashboard whose entry with an empty uid
precedes the dangling entry, some library-linked entry has a non-empty uid
absent from the lookup, yet Expand fails with the missing-uid error, not
the dangling-reference error. -/
theorem C5_counterexample :
    (isLibraryRef zzzEntry = true ∧ refUid zzzEntry ≠ "" ∧
      abcLookup.find (refUid zzzEntry) = none) ∧
    (LoadLibraryPanelsForDashboard enabledService abcLookup noUidFirstDash).2 ≠
      some "found a library panel that does not exists as a connection" ∧
    (LoadLibraryPanelsForDashboard enabledService abcLookup noUidFirstDash).2 =
      some "found a library panel without uid" :=
  ⟨⟨rfl, by decide, rfl⟩, by decide, rfl⟩

/-- Expand either leaves the dashboard untouched with no error, or the
feature is enabled and the document has a panels array. -/
theorem Load_cases (lps : LibraryPanelService) (lib : PanelLookup) (dash : Dashboard) :
    LoadLibraryPanelsForDashboard lps lib dash = (dash, none) ∨
    (lps.IsEnabled = true ∧ ∃ panels, getField dash.Data "panels" = Json.arr panels) := by
  cases hEn : lps.IsEnabled with
  | false => exact Or.inl (noop_of_disabled lps hEn lib dash ⟨0⟩ []).1
  | true =>
      cases hsc : getField dash.Data "panels" with
      | arr panels => exact Or.inr ⟨rfl, panels, rfl⟩
      | null => left; unfold LoadLibraryPanelsForDashboard; rw [hEn, hsc]; rfl
      | str s => left; unfold LoadLibraryPanelsForDashboard; rw [hEn, hsc]; rfl
      | int n => left; unfold LoadLibraryPanelsForDashboard; rw [hEn, hsc]; rfl
      | bool b => left; unfold LoadLibraryPanelsForDashboard; rw [hEn, hsc]; rfl
      | obj f => left; unfold LoadLibraryPanelsForDashboard; rw [hEn, hsc]; rfl

/-- Collapse either leaves the dashboard untouched with no error, or the
feature is enabled and the document has a panels array. -/
theorem Clean_cases (lps : LibraryPanelService) (dash : Dashboard) :
    CleanLibraryPanelsForDashboard lps dash = (dash, none) ∨
    (lps.IsEnabled = true ∧ ∃ panels, getField dash.Data "panels" = Json.arr panels) := by
  cases hEn : lps.IsEnabled with
  | false => exact Or.inl (noop_of_disabled lps hEn [] dash ⟨0⟩ []).2.1
  | true =>
      cases hsc : getField dash.Data "panels" with
      | arr panels => exact Or.inr ⟨rfl, panels, rfl⟩
      | null => left; unfold CleanLibraryPanelsForDashboard; rw [hEn, hsc]; rfl
      | str s => left; unfold CleanLibraryPanelsForDashboard; rw [hEn, hsc]; rfl
      | int n => left; unfold CleanLibraryPanelsForDashboard; rw [hEn, hsc]; rfl
      | bool b => left; unfold CleanLibraryPanelsForDashboard; rw [hEn, hsc]; rfl
      | obj f => left; unfold CleanLibraryPanelsForDashboard; rw [hEn, hsc]; rfl

/-- C2 (amended): when Expand or Collapse returns an error, the document is
in general partially transformed — the panels array decomposes into a
prefix whose entries have been transformed in place and an untouched
remainder starting at the failing entry.  (The original claim — the
document is left completely unchanged — is false, see the
counterexample.) -/
theorem C2_partial_transform_on_error (lps : LibraryPanelService) (lib : PanelLookup)
    (dash : Dashboard) (e : String) :
    ((LoadLibraryPanelsForDashboard lps lib dash).2 = some e →
      ∃ panels pre p suf, getField dash.Data "panels" = Json.arr panels ∧
        panels = pre ++ p :: suf ∧
        (LoadLibraryPanelsForDashboard lps lib dash).1.Data =
          setField dash.Data "panels"
            (Json.arr (pre.map (expandedEntry lib) ++ p :: suf))) ∧
    ((CleanLibraryPanelsForDashboard lps dash).2 = some e →
      ∃ panels pre p suf, getField dash.Data "panels" = Json.arr panels ∧
        panels = pre ++ p :: suf ∧
        (CleanLibraryPanelsForDashboard lps dash).1.Data =
          setField dash.Data "panels"
            (Json.arr (cleanMap 0 pre ++ p :: suf))) := by
  constructor
  · intro h
    rcases Load_cases lps lib dash with hno | ⟨hEn, panels, hsc⟩
    · rw [hno] at h
      simp at h
    · rw [Load_eq_of_enabled lps lib dash panels hEn hsc] at h ⊢
      simp only at h ⊢
      obtain ⟨pre, p, suf, hsplit, hfst⟩ := loadPanels_error lib panels e h
      exact ⟨panels, pre, p, suf, hsc, hsplit, by rw [hfst]⟩
  · intro h
    rcases Clean_cases lps dash with hno | ⟨hEn, panels, hsc⟩
    · rw [hno] at h
      simp at h
    · rw [Clean_eq_of_enabled lps dash panels hEn hsc] at h ⊢
      simp only at h ⊢
      obtain ⟨pre, p, suf, hsplit, hfst⟩ := cleanPanels_error 0 panels e h
      exact ⟨panels, pre, p, suf, hsc, hsplit, by rw [hfst]⟩

theorem C2_partial_transform_on_error_witness :
    (∃ panels pre p suf,
        getField noUidSecondDash.Data "panels" = Json.arr panels ∧
        panels = pre ++ p :: suf ∧
        (LoadLibraryPanelsForDashboard enabledService abcLookup noUidSecondDash).1.Data =
          setField noUidSecondDash.Data "panels"
            (Json.arr (pre.map (expandedEntry abcLookup) ++ p :: suf))) ∧
    (∃ panels pre p suf,
        getField noUidSecondDash.Data "panels" = Json.arr panels ∧
        panels = pre ++ p :: suf ∧
        (CleanLibraryPanelsForDashboard enabledService noUidSecondDash).1.Data =
          setField noUidSecondDash.Data "panels"
            (Json.arr (cleanMap 0 pre ++ p :: suf))) :=
  ⟨(C2_partial_transform_on_error enabledService abcLookup noUidSecondDash
      "found a library panel without uid").1 rfl,
   (C2_partial_transform_on_error enabledService abcLookup noUidSecondDash
      "found a library panel without uid").2 rfl⟩

/-- C2 as stated is false: a dashboard whose first entry is a valid library
reference and whose second entry is malformed makes Expand fail, yet the
returned dashboard state differs from the input — the first entry has
already been expanded in place (its `type` field now reads "graph"). -/
theorem C2_counterexample :
    (LoadLibraryPanelsForDashboard enabledService abcLookup noUidSecondDash).2 =
      some "found a library panel without uid" ∧
    (LoadLibraryPanelsForDashboard enabledService abcLookup noUidSecondDash).1 ≠
      noUidSecondDash :=
  ⟨rfl, fun h =>
    absurd
      (congrArg
        (fun d =>
          mustString (getField ((mustArray (getField d.Data "panels")).getD 0 Json.null) "type"))
        h)
      (by decide)⟩

/-! ### Link: upsert and loop properties -/

theorem connectDashboard_self_mem (store : LinkStore) (uid : String) (d : Int) :
    (uid, d) ∈ connectDashboard store uid d := by
  unfold connectDashboard
  by_cases h : (uid, d) ∈ store
  · rw [if_pos h]
    exact h
  · rw [if_neg h]
    exact List.mem_append_right _ (List.mem_singleton.mpr rfl)

theorem connectDashboard_subset (store : LinkStore) (uid : String) (d : Int)
    (a : String × Int) (ha : a ∈ store) : a ∈ connectDashboard store uid d := by
  unfold connectDashboard
  split
  · exact ha
  · exact List.mem_append_left _ ha

theorem connectDashboard_count_le (store : LinkStore) (uid : String) (d : Int)
    (a : String × Int) (h : store.count a ≤ 1) :
    (connectDashboard store uid d).count a ≤ 1 := by
  unfold connectDashboard
  split
  · exact h
  · rename_i hmem
    rw [List.count_append]
    by_cases ha : a = (uid, d)
    · subst ha
      rw [List.count_eq_zero.mpr hmem]
      simp
    · have hz : List.count a [(uid, d)] = 0 := by
        simp [List.count_cons, Ne.symm ha]
      omega

theorem connectDashboard_eq_of_mem (store : LinkStore) (uid : String) (d : Int)
    (h : (uid, d) ∈ store) : connectDashboard store uid d = store := by
  unfold connectDashboard
  rw [if_pos h]

theorem connectPanels_none (d : Int) (ps : List Json) (store : LinkStore)
    (hok : ∀ p ∈ ps, isLibraryRef p = true → refUid p ≠ "") :
    (connectPanels d ps store).2 = none := by
  induction ps generalizing store with
  | nil => rfl
  | cons q rest ih =>
      cases hnq : (getField q "libraryPanel").isNull with
      | true =>
          rw [connectPanels_cons_skip d q rest store hnq]
          exact ih _ fun r hr hl => hok r (List.mem_cons_of_mem q hr) hl
      | false =>
          have hql : isLibraryRef q = true := by simp [isLibraryRef, hnq]
          have hqu := hok q (List.mem_cons_self q rest) hql
          rw [connectPanels_cons_link d q rest store hnq hqu]
          exact ih _ fun r hr hl => hok r (List.mem_cons_of_mem q hr) hl

theorem connectPanels_subset (d : Int) (ps : List Json) (store : LinkStore)
    (a : String × Int) (ha : a ∈ store) : a ∈ (connectPanels d ps store).1 := by
  induction ps generalizing store with
  | nil => exact ha
  | cons q rest ih =>
      cases hnq : (getField q "libraryPanel").isNull with
      | true =>
          rw [connectPanels_cons_skip d q rest store hnq]
          exact ih _ ha
      | false =>
          by_cases hqu : refUid q = ""
          · rw [connectPanels_cons_noUid d q rest store hnq hqu]
            exact ha
          · rw [connectPanels_cons_link d q rest store hnq hqu]
            exact ih _ (connectDashboard_subset store (refUid q) d a ha)

theorem connectPanels_mem (d : Int) (ps : List Json) (store : LinkStore) (u : String)
    (href : ∃ p ∈ ps, isLibraryRef p = true ∧ refUid p = u)
    (hok : ∀ p ∈ ps, isLibraryRef p = true → refUid p ≠ "") :
    (u, d) ∈ (connectPanels d ps store).1 := by
  induction ps generalizing store with
  | nil => simp at href
  | cons q rest ih =>
      obtain ⟨p, hmem, hplib, hpu⟩ := href
      cases hnq : (getField q "libraryPanel").isNull with
      | true =>
          have hpr : p ∈ rest := by
            rcases List.mem_cons.mp hmem with hpq | hpr
            · subst hpq
              simp [isLibraryRef, hnq] at hplib
            · exact hpr
          rw [connectPanels_cons_skip d q rest store hnq]
          exact ih _ ⟨p, hpr, hplib, hpu⟩ fun r hr hl => hok r (List.mem_cons_of_mem q hr) hl
      | false =>
          have hql : isLibraryRef q = true := by simp [isLibraryRef, hnq]
          have hqu := hok q (List.mem_cons_self q rest) hql
          rw [connectPanels_cons_link d q rest store hnq hqu]
          rcases List.mem_cons.mp hmem with hpq | hpr
          · subst hpq
            rw [← hpu]
            exact connectPanels_subset d rest _ _ (connectDashboard_self_mem store (refUid p) d)
          · exact ih _ ⟨p, hpr, hplib, hpu⟩ fun r hr hl => hok r (List.mem_cons_of_mem q hr) hl

theorem connectPanels_count_le (d : Int) (ps : List Json) (store : LinkStore)
    (a : String × Int) (h : store.count a ≤ 1) :
    ((connectPanels d ps store).1).count a ≤ 1 := by
  induction ps generalizing store with
  | nil => exact h
  | cons q rest ih =>
      cases hnq : (getField q "libraryPanel").isNull with
      | true =>
          rw [connectPanels_cons_skip d q rest store hnq]
          exact ih _ h
      | false =>
          by_cases hqu : refUid q = ""
          · rw [connectPanels_cons_noUid d q rest store hnq hqu]
            exact h
          · rw [connectPanels_cons_link d q rest store hnq hqu]
            exact ih _ (connectDashboard_count_le store (refUid q) d a h)

theorem connectPanels_fixed (d : Int) (ps : List Json) (store : LinkStore)
    (hok : ∀ p ∈ ps, isLibraryRef p = true → refUid p ≠ "")
    (hmem : ∀ p ∈ ps, isLibraryRef p = true → (refUid p, d) ∈ store) :
    connectPanels d ps store = (store, none) := by
  induction ps with
  | nil => rfl
  | cons q rest ih =>
      cases hnq : (getField q "libraryPanel").isNull with
      | true =>
          rw [connectPanels_cons_skip d q rest store hnq]
          exact ih (fun r hr hl => hok r (List.mem_cons_of_mem q hr) hl)
            (fun r hr hl => hmem r (List.mem_cons_of_mem q hr) hl)
      | false =>
          have hql : isLibraryRef q = true := by simp [isLibraryRef, hnq]
          have hqu := hok q (List.mem_cons_self q rest) hql
          rw [connectPanels_cons_link d q rest store hnq hqu,
            connectDashboard_eq_of_mem store (refUid q) d (hmem q (List.mem_cons_self q rest) hql)]
          exact ih (fun r hr hl => hok r (List.mem_cons_of_mem q hr) hl)
            (fun r hr hl => hmem r (List.mem_cons_of_mem q hr) hl)

theorem Connect_eq_of_valid (lps : LibraryPanelService) (c : ReqContext)
    (dash : Dashboard) (store : LinkStore) (panels : List Json)
    (hEn : lps.IsEnabled = true) (hId : ¬ dash.Id = 0) (hUid : ¬ dash.Uid = "")
    (hp : getField dash.Data "panels" = Json.arr panels) :
    ConnectLibraryPanelsForDashboard lps c dash store = connectPanels dash.Id panels store := by
  simp [ConnectLibraryPanelsForDashboard, hEn, hp, hId, hUid]

/-- C8: with the feature enabled, on a valid dashboard whose library-linked
entries all carry non-empty uids, linking twice succeeds both times, the
second call leaves the store exactly as the first left it, and a pair
(library panel `u`, dashboard) not linked before ends up with exactly one
row in the link table. -/
theorem C8_link_idempotent (lps : LibraryPanelService) (c : ReqContext)
    (dash : Dashboard) (store : LinkStore) (panels : List Json) (u : String)
    (hEn : lps.IsEnabled = true) (hId : ¬ dash.Id = 0) (hUid : ¬ dash.Uid = "")
    (hp : getField dash.Data "panels" = Json.arr panels)
    (hok : ∀ p ∈ panels, isLibraryRef p = true → refUid p ≠ "")
    (href : ∃ p ∈ panels, isLibraryRef p = true ∧ refUid p = u)
    (hnew : store.count (u, dash.Id) = 0) :
    (ConnectLibraryPanelsForDashboard lps c dash store).2 = none ∧
    ConnectLibraryPanelsForDashboard lps c dash
        (ConnectLibraryPanelsForDashboard lps c dash store).1 =
      ((ConnectLibraryPanelsForDashboard lps c dash store).1, none) ∧
    ((ConnectLibraryPanelsForDashboard lps c dash store).1).count (u, dash.Id) = 1 := by
  rw [Connect_eq_of_valid lps c dash store panels hEn hId hUid hp]
  rw [Connect_eq_of_valid lps c dash (connectPanels dash.Id panels store).1 panels hEn hId
    hUid hp]
  refine ⟨connectPanels_none dash.Id panels store hok, ?_, ?_⟩
  · exact connectPanels_fixed dash.Id panels _ hok
      fun p hp' hl => connectPanels_mem dash.Id panels store (refUid p) ⟨p, hp', hl, rfl⟩ hok
  · have hmem := connectPanels_mem dash.Id panels store u href hok
    have hle := connectPanels_count_le dash.Id panels store (u, dash.Id) (by omega)
    have hpos := List.count_pos_iff.mpr hmem
    omega

theorem C8_link_idempotent_witness :
    (ConnectLibraryPanelsForDashboard enabledService ⟨7⟩ oldDash []).2 = none ∧
    ConnectLibraryPanelsForDashboard enabledService ⟨7⟩ oldDash
        (ConnectLibraryPanelsForDashboard enabledService ⟨7⟩ oldDash []).1 =
      ((ConnectLibraryPanelsForDashboard enabledService ⟨7⟩ oldDash []).1, none) ∧
    ((ConnectLibraryPanelsForDashboard enabledService ⟨7⟩ oldDash []).1).count
        ("abc", oldDash.Id) = 1 :=
  C8_link_idempotent enabledService ⟨7⟩ oldDash [] [oldEntry] "abc" rfl
    (by decide) (by decide) rfl
    (fun p hp' _ => by
      rw [List.mem_singleton] at hp'
      subst hp'
      decide)
    ⟨oldEntry, List.mem_cons_self oldEntry [], rfl, rfl⟩ rfl

/-! ### Round-tripping Expand with Collapse -/

theorem Json.isInt_exists (j : Json) (h : j.isInt = true) : ∃ n, j = Json.int n := by
  cases j <;> first | exact ⟨_, rfl⟩ | simp [Json.isInt] at h

theorem Json.isObj_exists (j : Json) (h : j.isObj = true) :
    ∃ f, j = Json.obj f := by
  cases j <;> first | exact ⟨_, rfl⟩ | simp [Json.isObj] at h

/-- The per-entry conditions under which an entry round-trips through
Expand followed by Collapse: no library reference at all, or a reference
found in the lookup, keyed coherently (the row carries the uid it is keyed
under), whose stored name equals the current non-empty library-panel name,
with a numeric dashboard-local id and an object model. -/
def roundTripOk (lib : PanelLookup) (p : Json) : Bool :=
  !(isLibraryRef p) ||
    (match lib.find (refUid p) with
     | none => false
     | some lp =>
        !(refUid p == "") && (lp.UID == refUid p) && (refName p == lp.Name) &&
        !(lp.Name == "") && (getField p "id").isInt && lp.Model.isObj)

theorem roundTripOk_props (lib : PanelLookup) (p : Json)
    (h : roundTripOk lib p = true)
    (hnull : (getField p "libraryPanel").isNull = false) :
    ∃ lp, lib.find (refUid p) = some lp ∧ ¬ refUid p = "" ∧ lp.UID = refUid p ∧
      refName p = lp.Name ∧ ¬ lp.Name = "" ∧ (∃ n, getField p "id" = Json.int n) ∧
      ∃ mf, lp.Model = Json.obj mf := by
  have hlib : isLibraryRef p = true := by simp [isLibraryRef, hnull]
  unfold roundTripOk at h
  rw [hlib] at h
  simp only [Bool.not_true, Bool.false_or] at h
  cases hf : lib.find (refUid p) with
  | none =>
      rw [hf] at h
      simp at h
  | some lp =>
      rw [hf] at h
      simp only [Bool.and_eq_true, Bool.not_eq_true', beq_eq_false_iff_ne, ne_eq,
        beq_iff_eq] at h
      obtain ⟨⟨⟨⟨⟨h1, h2⟩, h3⟩, h4⟩, h5⟩, h6⟩ := h
      exact ⟨lp, rfl, h1, h2, h3, h4, Json.isInt_exists _ h5, Json.isObj_exists _ h6⟩

/-- On entries that all satisfy `roundTripOk`, the Expand loop succeeds. -/
theorem loadPanels_none_of_ok (lib : PanelLookup) (ps : List Json)
    (hall : ∀ p ∈ ps, roundTripOk lib p = true) :
    (loadPanels lib ps).2 = none := by
  induction ps with
  | nil => rfl
  | cons p rest ih =>
      cases hnull : (getField p "libraryPanel").isNull with
      | true =>
          rw [loadPanels_cons_skip lib p rest hnull]
          exact ih fun q hq => hall q (List.mem_cons_of_mem p hq)
      | false =>
          obtain ⟨lp, hf, hu, -, -, -, -, -⟩ :=
            roundTripOk_props lib p (hall p (List.mem_cons_self p rest)) hnull
          rw [loadPanels_cons_found lib p rest lp hnull hu hf]
          exact ih fun q hq => hall q (List.mem_cons_of_mem p hq)

theorem cleanedEntry_nonnull (i : Nat) (p : Json)
    (hnull : (getField p "libraryPanel").isNull = false) :
    cleanedEntry i p =
      Json.obj [("id", Json.int (mustInt64 (Int.ofNat i) (getField p "id"))),
                ("gridPos", mustMap (getField p "gridPos")),
                ("libraryPanel", Json.obj [("uid", Json.str (refUid p)),
                                           ("name", Json.str (refName p))])] := by
  simp [cleanedEntry, hnull]

/-- Collapsing the expansion of entries that all satisfy `roundTripOk`
gives exactly the collapse of the original entries. -/
theorem cleanPanels_map_expandedEntry (lib : PanelLookup) (i : Nat) (ps : List Json)
    (hall : ∀ p ∈ ps, roundTripOk lib p = true) :
    cleanPanels i (ps.map (expandedEntry lib)) = cleanPanels i ps := by
  induction ps generalizing i with
  | nil => rfl
  | cons p rest ih =>
      rw [List.map_cons]
      have htail := ih (i + 1) fun q hq => hall q (List.mem_cons_of_mem p hq)
      cases hnull : (getField p "libraryPanel").isNull with
      | true =>
          have he : expandedEntry lib p = p := by simp [expandedEntry, hnull]
          rw [he, cleanPanels_cons_skip i p _ hnull, cleanPanels_cons_skip i p rest hnull,
            htail]
      | false =>
          obtain ⟨lp, hf, hu, huid, hname, hnn, ⟨n, hid⟩, mf, hmf⟩ :=
            roundTripOk_props lib p (hall p (List.mem_cons_self p rest)) hnull
          obtain ⟨h1, h2, h3, h4⟩ := expandedEntry_fields lib p lp mf hnull hf hmf
          have hne : (getField (expandedEntry lib p) "libraryPanel").isNull = false := by
            rw [h1]
            rfl
          have hue : refUid (expandedEntry lib p) = lp.UID := by
            rw [refUid, h1]
            rfl
          have hnme : refName (expandedEntry lib p) = lp.Name := by
            rw [refName, h1]
            rfl
          have hu' : ¬ refUid (expandedEntry lib p) = "" := by
            rw [hue, huid]
            exact hu
          have hn' : ¬ refName (expandedEntry lib p) = "" := by
            rw [hnme]
            exact hnn
          have hnp : ¬ refName p = "" := by
            rw [hname]
            exact hnn
          rw [cleanPanels_cons_keep i (expandedEntry lib p) _ hne hu' hn',
            cleanPanels_cons_keep i p rest hnull hu hnp, htail,
            cleanedEntry_nonnull i (expandedEntry lib p) hne,
            cleanedEntry_nonnull i p hnull,
            h2, h3, hid, hue, huid, hnme, ← hname, mustMap_mustMap]
          simp [mustInt64]

/-- C1 (amended): with the feature enabled, Collapse∘Expand agrees with
Collapse on every dashboard whose library-linked entries are internally
consistent in the strengthened sense of `roundTripOk`: non-empty uid found
in the (coherently keyed) lookup, stored name equal to the current
non-empty library-panel name, numeric dashboard-local id, object model. -/
theorem C1_collapse_expand_roundtrip (lps : LibraryPanelService) (lib : PanelLookup)
    (dash : Dashboard) (panels : List Json) (hEn : lps.IsEnabled = true)
    (hp : getField dash.Data "panels" = Json.arr panels)
    (hall : ∀ p ∈ panels, roundTripOk lib p = true) :
    CleanLibraryPanelsForDashboard lps (LoadLibraryPanelsForDashboard lps lib dash).1 =
      CleanLibraryPanelsForDashboard lps dash := by
  obtain ⟨df, hdf⟩ := exists_obj_of_getField_ne_null dash.Data "panels"
    (by rw [hp]; simp [Json.isNull])
  have hsucc := loadPanels_none_of_ok lib panels hall
  rw [Load_eq_of_enabled lps lib dash panels hEn hp]
  simp only
  rw [loadPanels_fst_of_none lib panels hsucc]
  have hp' : getField
      (setField dash.Data "panels" (Json.arr (panels.map (expandedEntry lib)))) "panels" =
      Json.arr (panels.map (expandedEntry lib)) := by
    rw [hdf]
    exact getField_setField_self df "panels" _
  rw [Clean_eq_of_enabled lps _ (panels.map (expandedEntry lib)) hEn hp']
  rw [Clean_eq_of_enabled lps dash panels hEn hp]
  rw [cleanPanels_map_expandedEntry lib 0 panels hall]
  simp only
  rw [hdf, setField_setField_self]

/-- An entry already carrying the current library-panel name of `abc`. -/
def newNameEntry : Json :=
  Json.obj [("id", Json.int 1),
            ("gridPos", Json.obj [("x", Json.int 0), ("y", Json.int 0)]),
            ("libraryPanel", Json.obj [("uid", Json.str "abc"),
                                       ("name", Json.str "New Name")])]

/-- A dashboard holding just `newNameEntry`. -/
def newNameDash : Dashboard :=
  ⟨1, "d1", Json.obj [("panels", Json.arr [newNameEntry])]⟩

theorem C1_collapse_expand_roundtrip_witness :
    CleanLibraryPanelsForDashboard enabledService
        (LoadLibraryPanelsForDashboard enabledService abcLookup newNameDash).1 =
      CleanLibraryPanelsForDashboard enabledService newNameDash :=
  C1_collapse_expand_roundtrip enabledService abcLookup newNameDash [newNameEntry]
    rfl rfl
    (fun p hp' => by
      rw [List.mem_singleton] at hp'
      subst hp'
      decide)

/-- C1 as stated is false: `oldDash` has a single library-linked entry with
a non-empty uid present in the lookup (the claim's notion of internal
consistency), yet Collapse(Expand(d)) and Collapse(d) differ, because
Expand refreshes the reference name to the current library-panel name
("New Name") while Collapse(d) keeps the stored one ("Old Name"). -/
theorem C1_counterexample :
    (∀ p ∈ [oldEntry], isLibraryRef p = true →
      refUid p ≠ "" ∧ (abcLookup.find (refUid p)).isSome = true) ∧
    CleanLibraryPanelsForDashboard enabledService
        (LoadLibraryPanelsForDashboard enabledService abcLookup oldDash).1 ≠
      CleanLibraryPanelsForDashboard enabledService oldDash :=
  ⟨fun p hp' _ => by
      rw [List.mem_singleton] at hp'
      subst hp'
      exact ⟨by decide, rfl⟩,
   fun h =>
    absurd
      (congrArg
        (fun r =>
          refName ((mustArray (getField r.1.Data "panels")).getD 0 Json.null))
        h)
      (by decide)⟩
